import Mathlib

/-!
Shallow embedding of the filter-and-aggregate pipeline of `src/dashboard.py`
(a Streamlit dashboard over a Spotify listening-history CSV).

The embedded operations, with the source lines they come from:
* `load_data`        — lines 54-57: timestamp coercion, drop of unparseable
  rows, derived `playtime_s` column;
* `filtered`         — lines 87-91: the three `isin` facet filters;
* `full_selection`   — lines 70-84: the `st.multiselect` defaults
  (`sorted(df[col].unique())` for each facet);
* `total_ms`/`total_h` — lines 98-99;
* `top_artists`/`top_tracks` — lines 104-120: `groupby(col)["ms_played"].sum()
  .sort_values(ascending=False).head(10) / 3_600_000`;
* `hourly`           — lines 125-132: `filtered["ts"].dt.hour.value_counts()
  .sort_index()`;
* `platform_counts`  — lines 162-163: `filtered["platform"].value_counts()`.

Modelling conventions: a DataFrame is a `List` of records in row order;
timestamps are seconds since an epoch (`Nat`), with the pandas `NaT` produced
by `pd.to_datetime(..., errors="coerce")` modelled as `none`; the float
divisions (`/ 1000`, `/ 3_600_000`) are modelled over `ℚ`; pandas
`groupby(sort=True)` sorts the group keys ascending, and `sort_values` /
`sort_index` are modelled as stable insertion sorts (numpy's tie order on the
tiny arrays involved coincides with the stable order, and stability is the
reading most favourable to the specification's tie-break clause).
-/

namespace Dashboard

/-- A raw CSV row after `pd.read_csv` and `pd.to_datetime(df["ts"],
errors="coerce")` (dashboard.py line 54): `ts` holds the coerced parse result,
`none` standing for `NaT` (the timestamp string failed to parse). -/
structure RawRow where
  ts : Option Nat
  artist_name : String
  album_name : String
  track_name : String
  platform : String
  ms_played : Nat
deriving DecidableEq

/-- A loaded record: `ts` is the successfully parsed timestamp and
`playtime_s = ms_played / 1000` (dashboard.py line 56) is the derived float
column, modelled over `ℚ`. -/
structure Record where
  ts : Nat
  artist_name : String
  album_name : String
  track_name : String
  platform : String
  ms_played : Nat
  playtime_s : ℚ
deriving DecidableEq

/-- dashboard.py lines 54-57: coerce `ts`, `dropna(subset=["ts"])` (rows whose
timestamp failed to parse are dropped, the rest kept in source order), then
derive `playtime_s`. -/
def load_data (rows : List RawRow) : List Record :=
  rows.filterMap fun r =>
    r.ts.map fun t =>
      ⟨t, r.artist_name, r.album_name, r.track_name, r.platform, r.ms_played,
        (r.ms_played : ℚ) / 1000⟩

/-- The sidebar filter state: the three multiselect value sets
(dashboard.py lines 70-84). -/
structure Selection where
  artists : List String
  albums : List String
  platforms : List String

/-- The conjunction of the three `isin` membership tests of
dashboard.py lines 88-90. -/
def passes (s : Selection) (r : Record) : Bool :=
  decide (r.artist_name ∈ s.artists) && decide (r.album_name ∈ s.albums) &&
    decide (r.platform ∈ s.platforms)

/-- dashboard.py lines 87-91: boolean-mask filtering keeps exactly the rows
passing all three `isin` tests, in row order. -/
def filtered (df : List Record) (s : Selection) : List Record :=
  df.filter (passes s)

/-- Stable ascending insertion (used to model `sorted(...)` and
`sort_index()`). -/
def insertAsc {α : Type*} [LinearOrder α] (x : α) : List α → List α
  | [] => [x]
  | y :: ys => if x ≤ y then x :: y :: ys else y :: insertAsc x ys

/-- Stable ascending insertion sort. -/
def sortAsc {α : Type*} [LinearOrder α] : List α → List α
  | [] => []
  | x :: xs => insertAsc x (sortAsc xs)

/-- dashboard.py lines 70-84: the multiselect defaults, i.e. the full
selection — `sorted(df[col].unique())` for each of the three facet columns. -/
def full_selection (df : List Record) : Selection :=
  ⟨sortAsc (df.map (fun r => r.artist_name)).dedup,
   sortAsc (df.map (fun r => r.album_name)).dedup,
   sortAsc (df.map (fun r => r.platform)).dedup⟩

/-- dashboard.py line 98: `filtered["ms_played"].sum()` — an integer sum. -/
def total_ms (view : List Record) : Nat :=
  (view.map (fun r => r.ms_played)).sum

/-- dashboard.py line 99: `total_ms / 3_600_000`, float division modelled
over `ℚ`. -/
def total_h (view : List Record) : ℚ :=
  (total_ms view : ℚ) / 3600000

/-- The one-decimal display rounding of dashboard.py line 100
(the format spec in the metric f-string). -/
def round1 (q : ℚ) : ℚ :=
  (round (q * 10) : ℚ) / 10

/-- Summed `ms_played` of the rows of `view` whose `key` column equals `k`
(one group of the pandas `groupby`). -/
def group_sum (key : Record → String) (view : List Record) (k : String) : Nat :=
  ((view.filter (fun r => key r == k)).map (fun r => r.ms_played)).sum

/-- pandas `groupby(col)["ms_played"].sum()` with the default `sort=True`:
one entry per distinct key, keys in ascending lexicographic order, value the
per-group sum. -/
def groupby_sum (key : Record → String) (view : List Record) :
    List (String × Nat) :=
  (sortAsc (view.map key).dedup).map (fun k => (k, group_sum key view k))

/-- Stable insertion by descending second component: a later element is
placed after all earlier elements of equal value. -/
def insertDesc (x : String × Nat) :
    List (String × Nat) → List (String × Nat)
  | [] => [x]
  | y :: ys => if y.2 ≤ x.2 then x :: y :: ys else y :: insertDesc x ys

/-- Stable sort by descending second component, modelling
`sort_values(ascending=False)`. -/
def sortDesc : List (String × Nat) → List (String × Nat)
  | [] => []
  | x :: xs => insertDesc x (sortDesc xs)

/-- dashboard.py lines 104-110: `filtered.groupby("artist_name")["ms_played"]
.sum().sort_values(ascending=False).head(10) / 3_600_000`. -/
def top_artists (view : List Record) : List (String × ℚ) :=
  ((sortDesc (groupby_sum (fun r => r.artist_name) view)).take 10).map
    (fun p => (p.1, (p.2 : ℚ) / 3600000))

/-- dashboard.py lines 114-120: the same pipeline keyed by `track_name`. -/
def top_tracks (view : List Record) : List (String × ℚ) :=
  ((sortDesc (groupby_sum (fun r => r.track_name) view)).take 10).map
    (fun p => (p.1, (p.2 : ℚ) / 3600000))

/-- `dt.hour`: hour-of-day component of a timestamp, always in `0..23`. -/
def hourOf (t : Nat) : Nat := t / 3600 % 24

/-- The hour-of-day column `filtered["ts"].dt.hour` (dashboard.py
lines 126-127). -/
def hours (view : List Record) : List Nat :=
  view.map (fun r => hourOf r.ts)

/-- dashboard.py lines 125-132: `value_counts().sort_index()` — one entry per
hour value OBSERVED in the view (pandas `value_counts` does not emit
zero-count categories), sorted ascending by hour. -/
def hourly (view : List Record) : List (Nat × Nat) :=
  (sortAsc (hours view).dedup).map (fun h => (h, (hours view).count h))

/-- The `platform` column of the view. -/
def platforms_of (view : List Record) : List String :=
  view.map (fun r => r.platform)

/-- dashboard.py lines 162-163: `filtered["platform"].value_counts()` — one
entry per distinct platform with its occurrence count, sorted descending by
count. -/
def platform_counts (view : List Record) : List (String × Nat) :=
  sortDesc ((platforms_of view).dedup.map
    (fun p => (p, (platforms_of view).count p)))

/-- Convenience constructor for concrete test records, computing
`playtime_s` the way `load_data` does. -/
def mkRec (artist album track plat : String) (ms t : Nat) : Record :=
  ⟨t, artist, album, track, plat, ms, (ms : ℚ) / 1000⟩

/-- Concrete one-row view: a single play at hour 10. -/
def exOne : List Record :=
  [mkRec "A" "Alb" "T1" "web" 180000 36000]

/-- Concrete tie view for the ranking claims: artist "Z" appears first in row
order, artist "Y" second, both with summed `ms_played = 120000`. -/
def exTie : List Record :=
  [mkRec "Z" "AlbZ" "TZ" "web" 120000 36000,
   mkRec "Y" "AlbY" "TY" "web" 120000 37800]

/-- The worked scenario of the specification: 180000 ms at hour 10 and
60000 ms at hour 10. -/
def exScenario : List Record :=
  [mkRec "A" "AlbA" "TA" "web" 180000 36000,
   mkRec "B" "AlbB" "TB" "web" 60000 37800]

/-- A selection whose artist component is empty (the album and platform
components match `exOne`). -/
def emptySel : Selection := ⟨[], ["Alb"], ["web"]⟩

/-- Projection of a loaded record back to the raw row it came from. -/
def rawOf (rec : Record) : RawRow :=
  ⟨some rec.ts, rec.artist_name, rec.album_name, rec.track_name, rec.platform,
    rec.ms_played⟩

/-- A well-formed raw row, parsing to `mkRec "A" "Alb" "T1" "web" 180000
36000`. -/
def exRaw : RawRow := ⟨some 36000, "A", "Alb", "T1", "web", 180000⟩

/-- A row of the Top-N value sort may legitimately precede another exactly
when it has the strictly larger summed value, or an equal value and the
strictly smaller (lexicographically earlier) group key. -/
def rankLt (a b : String × Nat) : Prop :=
  b.2 < a.2 ∨ (a.2 = b.2 ∧ a.1 < b.1)

/-- `rankLt` on the final `ℚ`-valued Top-N tables (after `/ 3_600_000`). -/
def rankLtQ (a b : String × ℚ) : Prop :=
  b.2 < a.2 ∨ (a.2 = b.2 ∧ a.1 < b.1)

/-! ### Lemmas about the insertion sorts -/

theorem mem_insertAsc {α : Type*} [LinearOrder α] (x : α) (l : List α) (z : α) :
    z ∈ insertAsc x l ↔ z = x ∨ z ∈ l := by
  induction l with
  | nil => simp [insertAsc]
  | cons y ys ih =>
    simp only [insertAsc]
    split
    · simp [List.mem_cons]
    · simp only [List.mem_cons, ih]
      tauto

theorem insertAsc_perm {α : Type*} [LinearOrder α] (x : α) (l : List α) :
    List.Perm (insertAsc x l) (x :: l) := by
  induction l with
  | nil => simp [insertAsc]
  | cons y ys ih =>
    simp only [insertAsc]
    split
    · exact List.Perm.refl _
    · exact (ih.cons y).trans (List.Perm.swap x y ys)

theorem sortAsc_perm {α : Type*} [LinearOrder α] (l : List α) :
    List.Perm (sortAsc l) l := by
  induction l with
  | nil => simp [sortAsc]
  | cons x xs ih => exact (insertAsc_perm x (sortAsc xs)).trans (ih.cons x)

theorem pairwise_le_insertAsc {α : Type*} [LinearOrder α] {x : α} {l : List α}
    (h : l.Pairwise (· ≤ ·)) : (insertAsc x l).Pairwise (· ≤ ·) := by
  induction l with
  | nil => simp [insertAsc]
  | cons y ys ih =>
    rw [List.pairwise_cons] at h
    obtain ⟨hy, hys⟩ := h
    simp only [insertAsc]
    split
    · rename_i hxy
      refine List.pairwise_cons.mpr ⟨?_, List.pairwise_cons.mpr ⟨hy, hys⟩⟩
      intro z hz
      rcases List.mem_cons.mp hz with rfl | hz
      · exact hxy
      · exact le_trans hxy (hy z hz)
    · rename_i hxy
      refine List.pairwise_cons.mpr ⟨?_, ih hys⟩
      intro z hz
      rcases (mem_insertAsc x ys z).mp hz with rfl | hz
      · exact le_of_not_le hxy
      · exact hy z hz

theorem pairwise_le_sortAsc {α : Type*} [LinearOrder α] (l : List α) :
    (sortAsc l).Pairwise (· ≤ ·) := by
  induction l with
  | nil => simp [sortAsc]
  | cons x xs ih =>
    simp only [sortAsc]
    exact pairwise_le_insertAsc ih

theorem pairwise_lt_sortAsc {α : Type*} [LinearOrder α] {l : List α}
    (hnd : l.Nodup) : (sortAsc l).Pairwise (· < ·) := by
  have h1 := pairwise_le_sortAsc l
  have h2 : (sortAsc l).Nodup := ((sortAsc_perm l).nodup_iff).mpr hnd
  exact (h1.and h2).imp fun h => lt_of_le_of_ne h.1 h.2

theorem rankLt_trans {a b c : String × Nat} (h1 : rankLt a b)
    (h2 : rankLt b c) : rankLt a c := by
  rcases h1 with h1 | ⟨h1v, h1k⟩ <;> rcases h2 with h2 | ⟨h2v, h2k⟩
  · exact Or.inl (by omega)
  · exact Or.inl (by omega)
  · exact Or.inl (by omega)
  · exact Or.inr ⟨h1v.trans h2v, lt_trans h1k h2k⟩

theorem mem_insertDesc (x : String × Nat) (l : List (String × Nat))
    (z : String × Nat) : z ∈ insertDesc x l ↔ z = x ∨ z ∈ l := by
  induction l with
  | nil => simp [insertDesc]
  | cons y ys ih =>
    simp only [insertDesc]
    split
    · simp [List.mem_cons]
    · simp only [List.mem_cons, ih]
      tauto

theorem insertDesc_perm (x : String × Nat) (l : List (String × Nat)) :
    List.Perm (insertDesc x l) (x :: l) := by
  induction l with
  | nil => simp [insertDesc]
  | cons y ys ih =>
    simp only [insertDesc]
    split
    · exact List.Perm.refl _
    · exact (ih.cons y).trans (List.Perm.swap x y ys)

theorem sortDesc_perm (l : List (String × Nat)) :
    List.Perm (sortDesc l) l := by
  induction l with
  | nil => simp [sortDesc]
  | cons x xs ih => exact (insertDesc_perm x (sortDesc xs)).trans (ih.cons x)

theorem pairwise_insertDesc {x : String × Nat} {l : List (String × Nat)}
    (hkey : ∀ y ∈ l, x.1 < y.1) (hp : l.Pairwise rankLt) :
    (insertDesc x l).Pairwise rankLt := by
  induction l with
  | nil => simp [insertDesc]
  | cons y ys ih =>
    rw [List.pairwise_cons] at hp
    obtain ⟨hy, hys⟩ := hp
    simp only [insertDesc]
    split
    · rename_i hv
      have hxy : rankLt x y := by
        rcases lt_or_eq_of_le hv with h | h
        · exact Or.inl h
        · exact Or.inr ⟨h.symm, hkey y (List.mem_cons_self y ys)⟩
      refine List.pairwise_cons.mpr ⟨?_, List.pairwise_cons.mpr ⟨hy, hys⟩⟩
      intro z hz
      rcases List.mem_cons.mp hz with rfl | hz
      · exact hxy
      · exact rankLt_trans hxy (hy z hz)
    · rename_i hv
      refine List.pairwise_cons.mpr
        ⟨?_, ih (fun z hz => hkey z (List.mem_cons_of_mem y hz)) hys⟩
      intro z hz
      rcases (mem_insertDesc x ys z).mp hz with rfl | hz
      · exact Or.inl (lt_of_not_le hv)
      · exact hy z hz

theorem pairwise_sortDesc {l : List (String × Nat)}
    (h : l.Pairwise (fun a b => a.1 < b.1)) :
    (sortDesc l).Pairwise rankLt := by
  induction l with
  | nil => simp [sortDesc]
  | cons x xs ih =>
    rw [List.pairwise_cons] at h
    obtain ⟨hx, hxs⟩ := h
    simp only [sortDesc]
    refine pairwise_insertDesc ?_ (ih hxs)
    intro y hy
    exact hx y ((sortDesc_perm xs).mem_iff.mp hy)

/-! ### Lemmas about the grouped rankings -/

theorem groupby_sum_keys_pairwise (key : Record → String)
    (view : List Record) :
    (groupby_sum key view).Pairwise (fun a b => a.1 < b.1) := by
  unfold groupby_sum
  rw [List.pairwise_map]
  exact pairwise_lt_sortAsc (List.nodup_dedup _)

theorem rankLt_map_div {a b : String × Nat} (h : rankLt a b) :
    rankLtQ (a.1, (a.2 : ℚ) / 3600000) (b.1, (b.2 : ℚ) / 3600000) := by
  rcases h with h | ⟨hv, hk⟩
  · left
    have hq : (b.2 : ℚ) < (a.2 : ℚ) := by exact_mod_cast h
    exact (div_lt_div_iff_of_pos_right (by norm_num)).mpr hq
  · right
    exact ⟨by rw [hv], hk⟩

theorem pairwise_rankLtQ_topTen (key : Record → String) (view : List Record) :
    (((sortDesc (groupby_sum key view)).take 10).map
      (fun p => (p.1, (p.2 : ℚ) / 3600000))).Pairwise rankLtQ := by
  rw [List.pairwise_map]
  have h1 : (sortDesc (groupby_sum key view)).Pairwise rankLt :=
    pairwise_sortDesc (groupby_sum_keys_pairwise key view)
  have h2 := List.Pairwise.sublist (List.take_sublist 10 _) h1
  exact h2.imp rankLt_map_div

/-! ### Lemmas about the counting views -/

theorem sum_counts_sortAsc_dedup {α : Type*} [LinearOrder α] (l : List α) :
    ((sortAsc l.dedup).map (fun k => l.count k)).sum = l.length := by
  have hperm := (sortAsc_perm l.dedup).map (fun k => l.count k)
  rw [hperm.sum_eq, List.sum_map_count_dedup_eq_length]

/-! ### Lemmas about the loader -/

theorem load_data_map_rawOf (rows : List RawRow) :
    (load_data rows).map rawOf = rows.filter (fun r => r.ts.isSome) := by
  induction rows with
  | nil => simp [load_data]
  | cons r rs ih =>
    cases r with
    | mk ts a al tr pl ms =>
      simp only [load_data] at ih ⊢
      cases ts with
      | none => simpa [List.filterMap_cons, List.filter_cons] using ih
      | some t =>
        simp [List.filterMap_cons, List.filter_cons, rawOf]
        exact ih

theorem load_data_length_add (rows : List RawRow) :
    (load_data rows).length +
      (rows.filter (fun r => r.ts.isNone)).length = rows.length := by
  induction rows with
  | nil => simp [load_data]
  | cons r rs ih =>
    simp only [load_data] at ih ⊢
    cases hts : r.ts with
    | none =>
      simp [List.filterMap_cons, List.filter_cons, hts]
      omega
    | some t =>
      simp [List.filterMap_cons, List.filter_cons, hts]
      omega

theorem load_data_all_unparseable (rows : List RawRow) :
    load_data (rows.filter (fun r => r.ts.isNone)) = [] := by
  induction rows with
  | nil => simp [load_data]
  | cons r rs ih =>
    simp only [load_data] at ih ⊢
    cases hts : r.ts with
    | none => simp [List.filter_cons, hts, List.filterMap_cons]
    | some t => simp [List.filter_cons, hts]

theorem not_le_ZY : ¬ (("Z" : String) ≤ "Y") := by
  rw [String.le_iff_toList_le]; decide

/-! ### Claim theorems -/

/-- C1 (counterexample): the claim that the hourly histogram always has
exactly 24 entries fails on the code: on the one-record view `exOne` (one
play at hour 10) the `value_counts().sort_index()` pipeline of
dashboard.py lines 125-132 emits the single entry `(10, 1)`, not 24 entries
— hours with zero plays are omitted, not emitted with count 0. -/
theorem hourly_one_entry_not_24 :
    hourly exOne = [(10, 1)] ∧ (hourly exOne).length = 1 ∧ (1 : Nat) ≠ 24 := by
  refine ⟨?_, ?_, by decide⟩ <;>
    simp [hourly, hours, exOne, mkRec, hourOf, sortAsc, insertAsc]

/-- C1 (amended): for every filtered view, the hourly histogram has one
entry per hour value observed in the view (hours with zero plays are
omitted), in strictly ascending hour order; each entry carries that hour's
positive play count and a valid hour below 24, and the counts sum to the
number of records in the view. -/
theorem hourly_histogram_entries (view : List Record) :
    List.Perm ((hourly view).map (fun p => p.1)) (hours view).dedup ∧
    (hourly view).Pairwise (fun a b => a.1 < b.1) ∧
    ((hourly view).map (fun p => p.2)).sum = view.length ∧
    ∀ p ∈ hourly view, p.2 = (hours view).count p.1 ∧ 0 < p.2 ∧ p.1 < 24 := by
  refine ⟨?_, ?_, ?_, ?_⟩
  · have h1 : (hourly view).map (fun p => p.1) =
        sortAsc (hours view).dedup := by
      simp only [hourly, List.map_map]
      have h0 : ((fun p : Nat × Nat => p.1) ∘
          fun h => (h, (hours view).count h)) = id := rfl
      rw [h0, List.map_id]
    rw [h1]
    exact sortAsc_perm _
  · simp only [hourly, List.pairwise_map]
    exact pairwise_lt_sortAsc (List.nodup_dedup _)
  · simp only [hourly, List.map_map]
    have h2 : ((fun p : Nat × Nat => p.2) ∘
        fun h => (h, (hours view).count h)) =
        fun h => (hours view).count h := rfl
    rw [h2, sum_counts_sortAsc_dedup]
    simp [hours]
  · intro p hp
    simp only [hourly, List.mem_map] at hp
    obtain ⟨h, hh, rfl⟩ := hp
    have hmem : h ∈ hours view :=
      List.mem_dedup.mp ((sortAsc_perm (hours view).dedup).mem_iff.mp hh)
    refine ⟨rfl, List.count_pos_iff.mpr hmem, ?_⟩
    simp only [hours, List.mem_map] at hmem
    obtain ⟨r, _, rfl⟩ := hmem
    simp only [hourOf]
    exact Nat.mod_lt _ (by norm_num)

/-- C2 (counterexample): the claimed first-appearance tie-break fails on the
code. In `exTie`, artist "Z" appears before artist "Y" in row order and both
have summed `ms_played = 120000`, yet the Top-N pipeline of dashboard.py
lines 104-110 lists "Y" before "Z": `groupby` (default `sort=True`) reorders
the groups by ascending key before the value sort, so equal-sum groups come
out in key order, not first-appearance order. -/
theorem top_artists_tie_counterexample :
    exTie.map (fun r => r.ms_played) = [120000, 120000] ∧
    exTie.map (fun r => r.artist_name) = ["Z", "Y"] ∧
    (top_artists exTie).map (fun p => p.1) = ["Y", "Z"] ∧
    (top_artists exTie).map (fun p => p.1) ≠ ["Z", "Y"] := by
  have h3 : (top_artists exTie).map (fun p => p.1) = ["Y", "Z"] := by
    simp [top_artists, groupby_sum, group_sum, exTie, mkRec, sortAsc,
      insertAsc, sortDesc, insertDesc, not_le_ZY, List.dedup_cons_of_not_mem]
  refine ⟨by simp [exTie, mkRec], by simp [exTie, mkRec], h3, ?_⟩
  rw [h3]
  decide

/-- C2 (amended): the Top-N artist and track rankings group the view by
name, sum `ms_played` per group, and sort descending by that sum, but when
two groups have equal sums they appear in ascending lexicographic order of
the group name (the order `groupby(sort=True)` leaves them in), not in
first-appearance order; each table has at most 10 rows. -/
theorem top_ranking_tie_by_key_order (view : List Record) :
    (top_artists view).Pairwise rankLtQ ∧
    (top_tracks view).Pairwise rankLtQ ∧
    (top_artists view).length ≤ 10 ∧ (top_tracks view).length ≤ 10 := by
  refine ⟨pairwise_rankLtQ_topTen _ view, pairwise_rankLtQ_topTen _ view,
    ?_, ?_⟩ <;>
  · simp only [top_artists, top_tracks, List.length_map, List.length_take]
    omega

/-- C3 (counterexample): on the empty view the aggregate values are indeed
all-zero/empty and total, but the hourly histogram is the empty table, not
the claimed 24-entry all-zero table (and the app itself stops with a warning
before aggregating an empty view, dashboard.py lines 93-95). -/
theorem empty_view_hourly_not_24 :
    total_h [] = 0 ∧ top_artists [] = [] ∧ top_tracks [] = [] ∧
    hourly ([] : List Record) = [] ∧
    (hourly ([] : List Record)).length ≠ 24 := by
  refine ⟨by simp [total_h, total_ms],
    by simp [top_artists, groupby_sum, sortDesc, sortAsc],
    by simp [top_tracks, groupby_sum, sortDesc, sortAsc],
    by simp [hourly, hours, sortAsc], ?_⟩
  simp [hourly, hours, sortAsc]

/-- C3 (amended): computing the aggregates on an empty view is total and
returns the all-zero/empty results: total playtime `0` hours, empty Top-N
tables, an empty (0-entry) hourly histogram and empty platform counts. -/
theorem aggregate_empty_view_defined :
    total_h [] = 0 ∧ top_artists [] = [] ∧ top_tracks [] = [] ∧
    hourly ([] : List Record) = [] ∧ platform_counts [] = [] := by
  refine ⟨by simp [total_h, total_ms],
    by simp [top_artists, groupby_sum, sortDesc, sortAsc],
    by simp [top_tracks, groupby_sum, sortDesc, sortAsc],
    by simp [hourly, hours, sortAsc],
    by simp [platform_counts, platforms_of, sortDesc]⟩

/-- C4: filtering a dataset with the full selection (the multiselect
defaults: the complete distinct artist, album and platform value sets of the
dataset) returns the dataset itself, every record present in the same
order. -/
theorem filter_full_selection_identity (df : List Record) :
    filtered df (full_selection df) = df := by
  rw [filtered, List.filter_eq_self]
  intro r hr
  simp only [passes, full_selection, Bool.and_eq_true, decide_eq_true_eq]
  refine ⟨⟨?_, ?_⟩, ?_⟩ <;>
  · rw [(sortAsc_perm _).mem_iff, List.mem_dedup]
    exact List.mem_map_of_mem _ hr

/-- C5: if any of the three selection component sets is empty, the filtered
view is empty — an empty multiselect means nothing passes. -/
theorem filter_empty_selection_empty (df : List Record) (s : Selection)
    (h : s.artists = [] ∨ s.albums = [] ∨ s.platforms = []) :
    filtered df s = [] := by
  rw [filtered, List.filter_eq_nil_iff]
  intro r hr
  rcases h with h | h | h <;> simp [passes, h]

/-- C5 witness: filtering the concrete one-record view with a selection
whose artist set is empty yields the empty view. -/
theorem filter_empty_selection_empty_witness :
    filtered exOne emptySel = [] :=
  filter_empty_selection_empty exOne emptySel (Or.inl rfl)

/-- C6: a record is in the filtered view iff it is in the dataset and its
artist, album and platform each belong to the corresponding selection set;
the filtered view is an order-preserving subsequence of the dataset, and
each surviving record keeps its exact multiplicity. -/
theorem filtered_iff_and_subsequence (df : List Record) (s : Selection) :
    List.Sublist (filtered df s) df ∧
    (∀ r : Record, r ∈ filtered df s ↔
      r ∈ df ∧ r.artist_name ∈ s.artists ∧ r.album_name ∈ s.albums ∧
        r.platform ∈ s.platforms) ∧
    (∀ r : Record, passes s r = true →
      (filtered df s).count r = df.count r) := by
  refine ⟨List.filter_sublist df, ?_, ?_⟩
  · intro r
    simp [filtered, List.mem_filter, passes, and_assoc]
  · intro r h
    rw [filtered]
    exact List.count_filter h

/-- C7: loading silently drops exactly the rows whose timestamp fails to
parse: the loaded dataset is smaller by exactly the number of unparseable
rows, the surviving records correspond one-to-one and in source order to the
parseable raw rows, and a load in which every row is dropped yields the
(valid) empty dataset. -/
theorem load_drops_unparseable_rows (rows : List RawRow) :
    (load_data rows).length =
      rows.length - (rows.filter (fun r => r.ts.isNone)).length ∧
    (load_data rows).map rawOf = rows.filter (fun r => r.ts.isSome) ∧
    load_data (rows.filter (fun r => r.ts.isNone)) = [] := by
  refine ⟨?_, load_data_map_rawOf rows, load_data_all_unparseable rows⟩
  have h := load_data_length_add rows
  omega

/-- C8: the total playtime metric is the integer sum of `ms_played` over the
view, divided by 3600000 only at the final conversion to hours; on the
specification's worked scenario (180000 ms + 60000 ms) this gives
240000 / 3600000 = 1/15 h (approx. 0.0667 h), displayed rounded to one
decimal as 0.1 h. -/
theorem total_playtime_from_integer_sum (view : List Record) :
    total_ms view = (view.map (fun r => r.ms_played)).sum ∧
    total_h view = (total_ms view : ℚ) / 3600000 ∧
    total_h exScenario = 1 / 15 ∧
    round1 (total_h exScenario) = 1 / 10 := by
  refine ⟨rfl, rfl, ?_, ?_⟩
  · norm_num [total_h, total_ms, exScenario, mkRec]
  · norm_num [round1, total_h, total_ms, exScenario, mkRec, round_eq]

/-- C9: every record of a loaded dataset carries a timestamp that came from
a successful parse of some raw row, so hour-of-day extraction is total on
loaded data and always yields an hour below 24. -/
theorem loaded_timestamps_parsed (rows : List RawRow) (rec : Record)
    (h : rec ∈ load_data rows) :
    (∃ raw ∈ rows, raw.ts = some rec.ts) ∧ hourOf rec.ts < 24 := by
  constructor
  · rw [load_data, List.mem_filterMap] at h
    obtain ⟨raw, hraw, hmap⟩ := h
    refine ⟨raw, hraw, ?_⟩
    cases hts : raw.ts with
    | none => rw [hts] at hmap; simp at hmap
    | some t =>
      rw [hts] at hmap
      simp only [Option.map_some', Option.some.injEq] at hmap
      rw [← hmap]
  · simp only [hourOf]
    exact Nat.mod_lt _ (by norm_num)

/-- C9 witness: the concrete raw row `exRaw` parses, and the record loaded
from it has a valid hour. -/
theorem loaded_timestamps_parsed_witness :
    (∃ raw ∈ [exRaw],
      raw.ts = some (mkRec "A" "Alb" "T1" "web" 180000 36000).ts) ∧
    hourOf (mkRec "A" "Alb" "T1" "web" 180000 36000).ts < 24 :=
  loaded_timestamps_parsed [exRaw] (mkRec "A" "Alb" "T1" "web" 180000 36000)
    (by simp [load_data, exRaw, mkRec])

/-- C10: the platform counts partition the filtered view: there is one entry
per distinct platform of the view and the per-platform counts sum to the
number of records in the view. -/
theorem platform_counts_partition (view : List Record) :
    ((platform_counts view).map (fun p => p.2)).sum = view.length ∧
    List.Perm ((platform_counts view).map (fun p => p.1))
      (platforms_of view).dedup := by
  constructor
  · have hperm := (sortDesc_perm ((platforms_of view).dedup.map
      (fun p => (p, (platforms_of view).count p)))).map
      (fun p : String × Nat => p.2)
    rw [platform_counts, hperm.sum_eq, List.map_map]
    have h2 : ((fun p : String × Nat => p.2) ∘
        (fun p => (p, (platforms_of view).count p))) =
        fun p => (platforms_of view).count p := rfl
    rw [h2, List.sum_map_count_dedup_eq_length]
    simp [platforms_of]
  · have hperm := (sortDesc_perm ((platforms_of view).dedup.map
      (fun p => (p, (platforms_of view).count p)))).map
      (fun p : String × Nat => p.1)
    rw [platform_counts]
    refine hperm.trans ?_
    rw [List.map_map]
    have h2 : ((fun p : String × Nat => p.1) ∘
        (fun p => (p, (platforms_of view).count p))) = id := rfl
    rw [h2, List.map_id]

end Dashboard
